import Mathlib

/-!
Verification of the bulk-operation layer of a REST framework extension
(rest_framework_bulk: serializers.py and mixins.py).

The Python classes are shallowly embedded as pure Lean functions.  External
collaborators (the per-record child serializer, the entity store, querysets)
are passed in as function parameters; Python exceptions become the
`Except FatalErr` monad; Python dicts used as error details become
association lists from field names to structured error items.
-/

set_option autoImplicit false

namespace DRFBulk

variable {Rec Val Obj Rp D : Type} {α β : Type}

/-- One structured error object: DRF's ErrorDetail, a message string carrying
an error code. -/
structure ErrItem where
  message : String
  code : String
deriving DecidableEq, Repr

/-- An error detail dict: field name (or the non-field key) mapped to an
ordered list of structured error items.  The empty list models the empty
dict appended for valid rows. -/
abbrev ErrDetail := List (String × List ErrItem)

/-- Shape of the serializer's internal errors attribute: the per-record list
produced by tolerant validation, or the dict detail of a fatal
ValidationError caught by is_valid. -/
inductive ErrorsVal
  | lst (l : List ErrDetail)
  | dct (d : ErrDetail)
deriving DecidableEq, Repr

/-- Python truthiness of the errors attribute value (nonempty list or dict). -/
def ErrorsVal.truthy : ErrorsVal → Bool
  | .lst l => !l.isEmpty
  | .dct d => !d.isEmpty

/-- Truthiness of getattr(self, underscore-errors, None). -/
def errsAttrTruthy : Option ErrorsVal → Bool
  | none => false
  | some ev => ev.truthy

/-- Exceptions that escape the functions under study.  ValidationError comes
in the three detail shapes raised by this code; the rest model non-DRF
exceptions (uncaught by the validation machinery). -/
inductive FatalErr
  | validationDict (d : ErrDetail)
  | validationList (l : List ErrDetail)
  | validationMsg (message code : String)
  | skipField
  | doesNotExist
  | attributeError
  | typeError
  | assertionError
  | parseError (msg : String)
deriving DecidableEq, Repr

/-- A parsed request body: either not list-shaped (with the Python type name
of the value, used in the error message) or a list of input records. -/
inductive Payload (Rec : Type)
  | notList (typeName : String)
  | items (l : List Rec)
deriving DecidableEq, Repr

/-- DRF settings key under which non-field errors are reported. -/
def NON_FIELD_ERRORS_KEY : String := "non_field_errors"

/-- DRF ListSerializer default message for a non-list body. -/
def not_a_list_message (input_type : String) : String :=
  "Expected a list of items but got type \"" ++ input_type ++ "\"."

/-- DRF ListSerializer default message for a disallowed empty list. -/
def empty_list_message : String := "This list may not be empty."

/-- Detail raised for a non-list body (code not_a_list, non-field key). -/
def notAListDetail (input_type : String) : ErrDetail :=
  [(NON_FIELD_ERRORS_KEY, [⟨not_a_list_message input_type, "not_a_list"⟩])]

/-- Detail raised inside the tolerant loop for an update record without its
lookup key.  A plain string detail gets DRF's default code invalid. -/
def requiredDetail (id_attr : String) : ErrDetail :=
  [(id_attr, [⟨"This field is required.", "invalid"⟩])]

/-- Everything EasyBulkListSerializer reads from its surroundings: the
configured lookup-field name, whether the view action is create, whether the
empty list is allowed, whether this is a nested partial field (parent and
partial set), plus the external collaborators: key presence in a raw record,
the entity-store lookup for the record's key (false models an uncaught
DoesNotExist), and the child serializer's run_validation. -/
structure SerializerCfg (Rec Val : Type) where
  id_attr : String
  isCreateAction : Bool
  allow_empty : Bool
  partialNested : Bool
  hasKey : Rec → Bool
  instanceGet : Rec → Bool
  childValidate : Rec → Except ErrDetail Val

/-- One iteration of the tolerant loop in
EasyBulkListSerializer.to_internal_value: for non-create actions a record
missing the lookup key yields the caught required-field error; a failed
entity lookup propagates (DoesNotExist is not a ValidationError); otherwise
the child validator runs, its ValidationError being caught as this record's
detail while success contributes the validated value and an empty detail. -/
def recordOutcome (cfg : SerializerCfg Rec Val) (item : Rec) :
    Except FatalErr (Option Val × ErrDetail) :=
  if cfg.isCreateAction then
    match cfg.childValidate item with
    | .error d => .ok (none, d)
    | .ok v => .ok (some v, [])
  else
    if cfg.hasKey item then
      if cfg.instanceGet item then
        match cfg.childValidate item with
        | .error d => .ok (none, d)
        | .ok v => .ok (some v, [])
      else .error .doesNotExist
    else .ok (none, requiredDetail cfg.id_attr)

/-- The tolerant loop itself: accumulates the successes (ret) in order and
one detail per input position (errors). -/
def internalLoop (cfg : SerializerCfg Rec Val) :
    List Rec → Except FatalErr (List Val × List ErrDetail)
  | [] => .ok ([], [])
  | item :: rest =>
    match recordOutcome cfg item with
    | .error e => .error e
    | .ok (ov, d) =>
      match internalLoop cfg rest with
      | .error e => .error e
      | .ok (ret, errs) =>
        .ok ((match ov with | some v => v :: ret | none => ret), d :: errs)

/-- EasyBulkListSerializer.to_internal_value.  The HTML-form branch is not
modelled (the bulk mixins always pass parsed JSON).  A non-list body raises
the not_a_list ValidationError; a disallowed empty list raises SkipField for
nested partial fields and the empty-list ValidationError otherwise; a list
goes through the tolerant loop. -/
def to_internal_value (cfg : SerializerCfg Rec Val) (data : Payload Rec) :
    Except FatalErr (List Val × List ErrDetail) :=
  match data with
  | .notList tn => .error (.validationDict (notAListDetail tn))
  | .items l =>
    if !cfg.allow_empty && l.isEmpty then
      if cfg.partialNested then .error .skipField
      else .error (.validationDict [(NON_FIELD_ERRORS_KEY, [⟨empty_list_message, "empty"⟩])])
    else internalLoop cfg l

/-- EasyBulkListSerializer.run_validation.  validate_empty_values never takes
the empty branch here (the mixins always pass the request body), and the
class declares no validators while validate is the identity, so the result
is the to_internal_value dict passed through. -/
def run_validation (cfg : SerializerCfg Rec Val) (data : Payload Rec) :
    Except FatalErr (List Val × List ErrDetail) :=
  match to_internal_value cfg data with
  | .error e => .error e
  | .ok (ret, errors) => .ok (ret, errors)

/-- Attribute state of one serializer instance.  None models an absent
attribute (hasattr false); initial_data is always present because the
mixins construct the serializer with a data argument.  instanceRef is the
serializer's instance attribute, allow_errors the constructor flag. -/
structure SerializerState (Rec Val Obj : Type) where
  initial_data : Payload Rec
  validated_data : Option (List Val)
  errorsAttr : Option ErrorsVal
  instanceRef : Option (List Obj)
  allow_errors : Bool
deriving DecidableEq, Repr

/-- Fresh serializer state as built by get_serializer with a data argument. -/
def initState (p : Payload Rec) (inst : Option (List Obj)) (ae : Bool) :
    SerializerState Rec Val Obj :=
  ⟨p, none, none, inst, ae⟩

/-- Conversion of an errors attribute value into the ValidationError raised
by is_valid under raise_exception. -/
def evToFatal : ErrorsVal → FatalErr
  | .lst l => .validationList l
  | .dct d => .validationDict d

/-- EasyBulkListSerializer.is_valid.  The dict result of run_validation sets
validated_data to its value entry and, when any per-record detail is truthy,
raises ValidationError with the detail list, caught immediately: under
raise_exception validated_data is overwritten with the empty list, otherwise
it is left alone (so a shape-level failure leaves it unset).  The errors
attribute becomes the caught detail, or the empty list on success.  Finally
a truthy errors attribute is re-raised when raise_exception is set, and the
returned Bool is the falsiness of the errors attribute. -/
def is_valid (cfg : SerializerCfg Rec Val) (raise_exception : Bool)
    (s : SerializerState Rec Val Obj) :
    Except FatalErr (Bool × SerializerState Rec Val Obj) :=
  let recompute : Except FatalErr (SerializerState Rec Val Obj) :=
    if s.validated_data.isSome then .ok s
    else
      match run_validation cfg s.initial_data with
      | .ok (value, errors) =>
        if errors.any (fun d => !d.isEmpty) then
          .ok { s with validated_data := some (if raise_exception then [] else value),
                       errorsAttr := some (.lst errors) }
        else
          .ok { s with validated_data := some value, errorsAttr := some (.lst []) }
      | .error (.validationDict d) =>
        .ok { s with validated_data := if raise_exception then some [] else s.validated_data,
                     errorsAttr := some (.dct d) }
      | .error e => .error e
  match recompute with
  | .error e => .error e
  | .ok s1 =>
    match s1.errorsAttr with
    | none => .error .attributeError
    | some ev =>
      if ev.truthy && raise_exception then .error (evToFatal ev)
      else .ok (!ev.truthy, s1)

/-- Positions of the truthy entries of the errors attribute, as computed by
enumerating it in to_representation.  Enumerating a dict yields its keys,
whose truthiness is string non-emptiness. -/
def errPositions : ErrorsVal → List Nat
  | .lst l => (l.enum.filter fun p => !p.2.isEmpty).map Prod.fst
  | .dct d => (d.enum.filter fun p => !p.2.1.isEmpty).map Prod.fst

/-- EasyBulkListSerializer.to_representation: when the iterable is truthy and
the errors attribute exists, drop the positions whose error entry is truthy,
then map the child representation over what is left. -/
def to_representation (rep : α → β) (errsAttr : Option ErrorsVal)
    (data : List α) : List β :=
  let iterable : List α :=
    match errsAttr with
    | some ev =>
      if data.isEmpty then data
      else (data.enum.filter fun p => decide (p.1 ∉ errPositions ev)).map Prod.snd
    | none => data
  iterable.map rep

/-- Result of the data property: representations, or the raw initial data
returned by get_initial when errors are present and allow_errors is off. -/
inductive DataResult (Rec Rp : Type)
  | reprs (l : List Rp)
  | initial (p : Payload Rec)
deriving DecidableEq, Repr

/-- EasyBulkListSerializer.data: accessing it before validated_data exists
raises AssertionError; otherwise a non-None instance (or else the validated
data) is rendered through to_representation provided the errors attribute is
falsy or allow_errors is set, and get_initial is returned otherwise. -/
def dataProp (rep : Obj → Rp) (repV : Val → Rp)
    (s : SerializerState Rec Val Obj) : Except FatalErr (DataResult Rec Rp) :=
  match s.validated_data with
  | none => .error .assertionError
  | some vd =>
    match s.instanceRef with
    | some inst =>
      if !errsAttrTruthy s.errorsAttr || s.allow_errors then
        .ok (.reprs (to_representation rep s.errorsAttr inst))
      else .ok (.initial s.initial_data)
    | none =>
      if !errsAttrTruthy s.errorsAttr || s.allow_errors then
        .ok (.reprs (to_representation repV s.errorsAttr vd))
      else .ok (.initial s.initial_data)

/-- One element of a multi-status body. -/
inductive MSRecord (Rp : Type)
  | failure (errors : ErrDetail)
  | success (resource : Option Rp)
deriving DecidableEq, Repr

/-- build_multi_status_response: one output record per error entry; a truthy
entry becomes a failure carrying its full details (ErrItem already carries
message and code, so get_full_details is the identity here); a falsy entry
becomes a success consuming the front of the data list, or None when the
data list is exhausted. -/
def build_multi_status_response (data : List Rp) (errors : List ErrDetail) :
    List (MSRecord Rp) :=
  match errors with
  | [] => []
  | e :: rest =>
    if !e.isEmpty then .failure e :: build_multi_status_response data rest
    else .success data.head? :: build_multi_status_response data.tail rest

/-- Dispatch of build_multi_status_response on the errors attribute shape:
iterating a dict yields its keys, and the first truthy key crashes with
AttributeError when its items method is looked up on a string; error detail
keys are nonempty field names, so a nonempty dict always crashes while an
empty dict yields no records. -/
def multiStatusOrCrash (data : List Rp) : ErrorsVal → Except FatalErr (List (MSRecord Rp))
  | .lst l => .ok (build_multi_status_response data l)
  | .dct d => if d.isEmpty then .ok [] else .error .attributeError

/-- Body of a bulk response: plain list of representations, multi-status
records, or the raw initial data (only reachable with allow_errors off). -/
inductive ResponseBody (Rec Rp : Type)
  | plain (l : List Rp)
  | multi (l : List (MSRecord Rp))
  | raw (p : Payload Rec)
deriving DecidableEq, Repr

/-- Serializer configuration used by the create flow: the view action is
create, empty lists are allowed, and the update-only collaborators are
unused. -/
def createCfg (cv : Rec → Except ErrDetail Val) : SerializerCfg Rec Val :=
  { id_attr := "id", isCreateAction := true, allow_empty := true,
    partialNested := false, hasKey := fun _ => true,
    instanceGet := fun _ => true, childValidate := cv }

/-- EasyBulkCreateModelMixin.create, bulk branch (the request body is a
list; a non-list body is delegated to the single-record create).  Runs
is_valid without raising, snapshots a truthy errors attribute and resets it
to the empty list, performs the bulk create (serializer.save: requires a
falsy errors attribute and validated_data, creates one object per validated
value via the child and stores them as the instance), then answers 207 with
the multi-status body when errors were snapshotted and 201 with the plain
body otherwise. -/
def EasyBulkCreateModelMixin.create (cv : Rec → Except ErrDetail Val)
    (childCreate : Val → Obj) (rep : Obj → Rp) (repV : Val → Rp)
    (items : List Rec) : Except FatalErr (Nat × ResponseBody Rec Rp) :=
  match is_valid (createCfg cv) false
      (initState (.items items) none true : SerializerState Rec Val Obj) with
  | .error e => .error e
  | .ok (_ok, s1) =>
    match s1.errorsAttr with
    | none => .error .assertionError
    | some ev =>
      let errorsVar : ErrorsVal := if ev.truthy then ev else .lst []
      let s2 := if ev.truthy then { s1 with errorsAttr := some (.lst []) } else s1
      if errsAttrTruthy s2.errorsAttr then .error .assertionError
      else
        match s2.validated_data with
        | none => .error .assertionError
        | some vd =>
          let s3 := { s2 with instanceRef := some (vd.map childCreate) }
          match dataProp rep repV s3 with
          | .error e => .error e
          | .ok (.reprs dl) =>
            if errorsVar.truthy then
              match multiStatusOrCrash dl errorsVar with
              | .error e => .error e
              | .ok body => .ok (207, .multi body)
            else .ok (201, .plain dl)
          | .ok (.initial p) =>
            if errorsVar.truthy then .ok (207, .raw p) else .ok (201, .raw p)

/-- Escalation check in EasyBulkUpdateModelMixin.bulk_update: when the
errors snapshot is a dict whose non-field entry's first item has code
not_a_list, that item is re-raised as a fatal ValidationError.  A dict
without the key indexes None (TypeError); an empty entry indexes past the
end (modelled with the same fatal kind). -/
def not_a_list_escalation : ErrorsVal → Except FatalErr Unit
  | .lst _ => .ok ()
  | .dct d =>
    match d.lookup NON_FIELD_ERRORS_KEY with
    | none => .error .typeError
    | some [] => .error .typeError
    | some (e :: _) =>
      if e.code = "not_a_list" then .error (.validationMsg e.message e.code)
      else .ok ()

/-- Lookup key values as they occur in validated data: model-scalar values
with Python truthiness, None, and the rest_framework empty sentinel class
returned by get_value for an absent field (a class object). -/
inductive LookupKey
  | natKey (n : Nat)
  | strKey (s : String)
  | noneKey
  | emptyClass
deriving DecidableEq, Repr

/-- Python truthiness of a lookup key. -/
def LookupKey.truthy : LookupKey → Bool
  | .natKey n => n != 0
  | .strKey s => !s.isEmpty
  | .noneKey => false
  | .emptyClass => true

/-- inspect.isclass on a lookup key: only the empty sentinel is a class. -/
def LookupKey.isclass : LookupKey → Bool
  | .emptyClass => true
  | _ => false

/-- Insertion into a Python dict modelled as an association list: an
existing key keeps its position and gets the new value, a new key is
appended. -/
def dictInsert (k : LookupKey) (v : D) :
    List (LookupKey × D) → List (LookupKey × D)
  | [] => [(k, v)]
  | (k1, v1) :: rest =>
    if k1 = k then (k1, v) :: rest else (k1, v1) :: dictInsert k v rest

/-- The dict comprehension keyed by the popped lookup field: left-to-right
insertion, so a duplicated key keeps its first position and the last
record's data. -/
def buildById (l : List (LookupKey × D)) : List (LookupKey × D) :=
  l.foldl (fun acc kv => dictInsert kv.1 kv.2 acc) []

/-- Python dict get: the value at the key, or None. -/
def dictGet (m : List (LookupKey × D)) (k : LookupKey) : Option D :=
  (m.find? fun kv => kv.1 == k).map Prod.snd

/-- BulkListSerializer.update: key the validated data by the popped lookup
field, reject the request when any key is falsy or a class, select the
queryset rows whose key is among the dict's keys, reject the request when
the dict size differs from the selection size, and otherwise run the child
update on each selected row with its keyed data. -/
def BulkListSerializer.update (keyOf : Obj → LookupKey)
    (childUpdate : Obj → Option D → Obj) (queryset : List Obj)
    (all_validated_data : List (LookupKey × D)) : Except FatalErr (List Obj) :=
  let all_validated_data_by_id := buildById all_validated_data
  if !(all_validated_data_by_id.all fun kv => kv.1.truthy && !kv.1.isclass) then
    .error (.validationMsg "" "invalid")
  else
    let objects_to_update := queryset.filter fun o =>
      (all_validated_data_by_id.map Prod.fst).contains (keyOf o)
    if all_validated_data_by_id.length != objects_to_update.length then
      .error (.validationMsg "Could not find all objects to update." "invalid")
    else
      .ok (objects_to_update.map fun o =>
        childUpdate o (dictGet all_validated_data_by_id (keyOf o)))

/-- EasyBulkUpdateModelMixin.bulk_update: the serializer is built over the
filtered queryset as instance; is_valid runs without raising; a truthy
errors attribute is snapshotted and reset; a dict snapshot whose non-field
error is not_a_list escalates to a fatal ValidationError; then the bulk
update saves (BulkListSerializer.update over the instance queryset and the
validated data, the updated objects becoming the instance) and the response
is 207 multi-status when errors were snapshotted, 200 plain otherwise. -/
def EasyBulkUpdateModelMixin.bulk_update (cfg : SerializerCfg Rec (LookupKey × D))
    (keyOf : Obj → LookupKey) (childUpdate : Obj → Option D → Obj)
    (rep : Obj → Rp) (repV : LookupKey × D → Rp) (instanceQs : List Obj)
    (payload : Payload Rec) : Except FatalErr (Nat × ResponseBody Rec Rp) :=
  match is_valid cfg false (initState payload (some instanceQs) true) with
  | .error e => .error e
  | .ok (_ok, s1) =>
    match s1.errorsAttr with
    | none => .error .assertionError
    | some ev =>
      let errorsVar : ErrorsVal := if ev.truthy then ev else .lst []
      let s2 := if ev.truthy then { s1 with errorsAttr := some (.lst []) } else s1
      match not_a_list_escalation errorsVar with
      | .error e => .error e
      | .ok _ =>
        if errsAttrTruthy s2.errorsAttr then .error .assertionError
        else
          match s2.validated_data with
          | none => .error .assertionError
          | some vd =>
            match BulkListSerializer.update keyOf childUpdate instanceQs vd with
            | .error e => .error e
            | .ok updated =>
              let s3 := { s2 with instanceRef := some updated }
              match dataProp rep repV s3 with
              | .error e => .error e
              | .ok (.reprs dl) =>
                if errorsVar.truthy then
                  match multiStatusOrCrash dl errorsVar with
                  | .error e => .error e
                  | .ok body => .ok (207, .multi body)
                else .ok (200, .plain dl)
              | .ok (.initial p) =>
                if errorsVar.truthy then .ok (207, .raw p) else .ok (200, .raw p)

/-- A Django queryset: a Python object identity tag plus its row contents.
Distinct queryset objects carry distinct tags, so tag equality models the
is operator. -/
structure QuerySet (Obj : Type) where
  objId : Nat
  elems : List Obj
deriving DecidableEq, Repr

/-- BulkDestroyModelMixin.allow_bulk_destroy: qs is not filtered. -/
def BulkDestroyModelMixin.allow_bulk_destroy (qs filtered : QuerySet Obj) : Bool :=
  qs.objId != filtered.objId

/-- BulkDestroyModelMixin.bulk_destroy: refuse with 400 (deleting nothing)
when the filtered queryset is the very same object as the unfiltered one,
otherwise delete every row of the filtered queryset and answer 204.  The
result pairs the HTTP status with the deleted rows. -/
def BulkDestroyModelMixin.bulk_destroy (get_queryset : QuerySet Obj)
    (filter_queryset : QuerySet Obj → QuerySet Obj) : Nat × List Obj :=
  let qs := get_queryset
  let filtered := filter_queryset qs
  if !BulkDestroyModelMixin.allow_bulk_destroy qs filtered then (400, [])
  else (204, filtered.elems)

/-- str.split on a comma, over the character list: always at least one
(possibly empty) group. -/
def splitCommaChars : List Char → List (List Char)
  | [] => [[]]
  | c :: rest =>
    let r := splitCommaChars rest
    if c = ',' then [] :: r
    else
      match r with
      | g :: gs => (c :: g) :: gs
      | [] => [[c]]

/-- Full match of the ids query parameter against digits separated by single
commas (the regex used by EasyBulkDestroyModelMixin). -/
def idsFormatOk (s : String) : Bool :=
  (splitCommaChars s.data).all fun g => !g.isEmpty && g.all Char.isDigit

/-- Numeric value of a digit group (Django coerces the split strings back to
integer primary keys). -/
def digitsToNat (g : List Char) : Nat :=
  g.foldl (fun n c => n * 10 + (c.toNat - 48)) 0

/-- EasyBulkDestroyModelMixin.bulk_destroy: a truthy ids parameter must
match the digits regex (otherwise ParseError before any query) and is split
into the id list; an absent or empty parameter leaves the id list empty.
The base queryset is then filtered to rows whose id is in that list (a
fresh queryset object, tagged freshId), the view filter is applied, the
scope guard compares the two by identity, and on success the filtered rows
are deleted with 204. -/
def EasyBulkDestroyModelMixin.bulk_destroy (baseQs : QuerySet Obj)
    (idOf : Obj → Nat) (filter_queryset : QuerySet Obj → QuerySet Obj)
    (freshId : Nat) (ids : Option String) : Except FatalErr (Nat × List Obj) :=
  let listIdE : Except FatalErr (List Nat) :=
    match ids with
    | some s =>
      if !s.isEmpty then
        if !idsFormatOk s then .error (.parseError "Invalid ids")
        else .ok ((splitCommaChars s.data).map digitsToNat)
      else .ok []
    | none => .ok []
  match listIdE with
  | .error e => .error e
  | .ok list_id =>
    let qs : QuerySet Obj :=
      ⟨freshId, baseQs.elems.filter fun o => list_id.contains (idOf o)⟩
    let filtered := filter_queryset qs
    if !BulkDestroyModelMixin.allow_bulk_destroy qs filtered then .ok (400, [])
    else .ok (204, filtered.elems)

/-- Modelled from the spec (section 4.2, representation filtering): keep the
positions whose outcome entry is empty, in order, rendering each kept
object.  Stated over position-aligned object and outcome lists, to be
compared with to_representation. -/
def renderSpec (rep : α → β) (errs : List ErrDetail) (data : List α) : List β :=
  (data.zip errs).filterMap fun p => if p.2.isEmpty then some (rep p.1) else none

/-- Whether the tolerant loop marks a record invalid. -/
def recordFailsB (cfg : SerializerCfg Rec Val) (item : Rec) : Bool :=
  match recordOutcome cfg item with
  | .ok (none, _) => true
  | _ => false

/-! ### Lemmas about the tolerant loop -/

theorem recordOutcome_some_empty {cfg : SerializerCfg Rec Val} {item : Rec}
    {v : Val} {d : ErrDetail} (h : recordOutcome cfg item = .ok (some v, d)) :
    d = [] := by
  unfold recordOutcome at h
  split at h
  · cases hc : cfg.childValidate item <;> rw [hc] at h <;> simp_all
  · split at h
    · split at h
      · cases hc : cfg.childValidate item <;> rw [hc] at h <;> simp_all
      · simp_all
    · simp_all

theorem recordOutcome_none_detail {cfg : SerializerCfg Rec Val} {item : Rec}
    {d : ErrDetail}
    (hchild : ∀ r dd, cfg.childValidate r = .error dd → dd ≠ [])
    (h : recordOutcome cfg item = .ok (none, d)) : d ≠ [] := by
  unfold recordOutcome at h
  split at h
  · cases hc : cfg.childValidate item <;> rw [hc] at h <;> simp_all
    exact fun hnil => hchild item _ hc (by simp [hnil])
  · split at h
    · split at h
      · cases hc : cfg.childValidate item <;> rw [hc] at h <;> simp_all
        exact fun hnil => hchild item _ hc (by simp [hnil])
      · simp_all
    · simp_all
      simp [← h, requiredDetail]

/-- Structural facts about a completed tolerant loop: one error entry per
input position, success count complementary to the failure count, success
count equal to the number of empty entries, and the per-index
correspondence between records and entries. -/
theorem internalLoop_spec (cfg : SerializerCfg Rec Val) :
    ∀ (items : List Rec) (ret : List Val) (errors : List ErrDetail),
      internalLoop cfg items = .ok (ret, errors) →
      errors.length = items.length
      ∧ ret.length + (items.filter (recordFailsB cfg)).length = items.length
      ∧ (∀ (i : Nat) (item : Rec), items[i]? = some item →
          ∃ ov d, recordOutcome cfg item = .ok (ov, d) ∧ errors[i]? = some d
            ∧ (ov = none ↔ recordFailsB cfg item = true))
  | [], ret, errors, h => by
    simp only [internalLoop, Except.ok.injEq, Prod.mk.injEq] at h
    obtain ⟨h1, h2⟩ := h
    subst h1; subst h2
    refine ⟨rfl, by simp, ?_⟩
    intro i item hi
    simp at hi
  | item :: rest, ret, errors, h => by
    rw [internalLoop] at h
    cases ho : recordOutcome cfg item with
    | error e => rw [ho] at h; cases h
    | ok od =>
      obtain ⟨ov, d⟩ := od
      rw [ho] at h
      cases hl : internalLoop cfg rest with
      | error e => rw [hl] at h; cases h
      | ok rl =>
        obtain ⟨ret1, errs1⟩ := rl
        rw [hl] at h
        simp only [Except.ok.injEq, Prod.mk.injEq] at h
        obtain ⟨h1, h2⟩ := h
        subst h2
        obtain ⟨ih1, ih2, ih3⟩ := internalLoop_spec cfg rest ret1 errs1 hl
        have hidx : ∀ (i : Nat) (it : Rec), (item :: rest)[i]? = some it →
            ∃ ov1 d1, recordOutcome cfg it = .ok (ov1, d1)
              ∧ (d :: errs1)[i]? = some d1
              ∧ (ov1 = none ↔ recordFailsB cfg it = true) := by
          intro i it hi
          cases i with
          | zero =>
            simp only [List.getElem?_cons_zero, Option.some.injEq] at hi
            subst hi
            refine ⟨ov, d, ho, by simp, ?_⟩
            cases ov <;> simp [recordFailsB, ho]
          | succ n =>
            simp only [List.getElem?_cons_succ] at hi
            obtain ⟨ov1, d1, hro, hge, hiff⟩ := ih3 n it hi
            exact ⟨ov1, d1, hro, by simpa using hge, hiff⟩
        cases ov with
        | some v =>
          have hfb : recordFailsB cfg item = false := by
            simp [recordFailsB, ho]
          subst h1
          exact ⟨by simp [ih1], by simp [List.filter_cons, hfb]; omega, hidx⟩
        | none =>
          have hfb : recordFailsB cfg item = true := by
            simp [recordFailsB, ho]
          subst h1
          exact ⟨by simp [ih1], by simp [List.filter_cons, hfb]; omega, hidx⟩

/-- C2: a completed tolerant validation of a list input yields exactly one
outcome entry per input position, and (given the record-validator contract
that failure details are nonempty) the entry at index i is nonempty exactly
when record i failed validation. -/
theorem C2_outcome_index_alignment (cfg : SerializerCfg Rec Val)
    (items : List Rec) (ret : List Val) (errors : List ErrDetail)
    (hchild : ∀ r dd, cfg.childValidate r = .error dd → dd ≠ [])
    (hloop : internalLoop cfg items = .ok (ret, errors)) :
    errors.length = items.length
    ∧ ∀ (i : Nat) (item : Rec), items[i]? = some item →
        ∃ d, errors[i]? = some d ∧ (d ≠ [] ↔ recordFailsB cfg item = true) := by
  obtain ⟨h1, _h2, h3⟩ := internalLoop_spec cfg items ret errors hloop
  refine ⟨h1, ?_⟩
  intro i item hi
  obtain ⟨ov, d, hro, hge, hiff⟩ := h3 i item hi
  refine ⟨d, hge, ?_⟩
  cases ov with
  | some v =>
    have hd : d = [] := recordOutcome_some_empty hro
    subst hd
    have hf : recordFailsB cfg item = false := by
      cases hx : recordFailsB cfg item
      · rfl
      · exact absurd (hiff.mpr hx) (by simp)
    simp [hf]
  | none =>
    have hd := recordOutcome_none_detail hchild hro
    simp [hd, hiff.mp rfl]

/-- C2 witness configuration: update-mode serializer over Nat records where
record 9 lacks its lookup key, odd records fail child validation with a
one-field detail, and even records validate to themselves. -/
def wcfg : SerializerCfg Nat Nat :=
  { id_attr := "id", isCreateAction := false, allow_empty := true,
    partialNested := false, hasKey := fun n => n != 9,
    instanceGet := fun _ => true,
    childValidate := fun n =>
      if n % 2 = 0 then .ok n else .error [("f", [⟨"bad", "invalid"⟩])] }

theorem wcfg_child_contract :
    ∀ r dd, wcfg.childValidate r = .error dd → dd ≠ [] := by
  intro r dd h
  by_cases hr : r % 2 = 0 <;> simp [wcfg, hr] at h
  simp [← h]

theorem C2_witness :
    (∀ r dd, wcfg.childValidate r = .error dd → dd ≠ []) ∧
    internalLoop wcfg [2, 3, 4]
      = .ok ([2, 4], [[], [("f", [⟨"bad", "invalid"⟩])], []]) ∧
    (([[], [("f", [⟨"bad", "invalid"⟩])], []] : List ErrDetail).length
        = ([2, 3, 4] : List Nat).length
      ∧ ∀ (i : Nat) (item : Nat), ([2, 3, 4] : List Nat)[i]? = some item →
          ∃ d, ([[], [("f", [⟨"bad", "invalid"⟩])], []] : List ErrDetail)[i]? = some d
            ∧ (d ≠ [] ↔ recordFailsB wcfg item = true)) :=
  ⟨wcfg_child_contract, rfl,
    C2_outcome_index_alignment wcfg [2, 3, 4] [2, 4]
      [[], [("f", [⟨"bad", "invalid"⟩])], []] wcfg_child_contract rfl⟩

/-- C3: a completed tolerant loop visits every record (one outcome entry per
position), produces exactly the number of validated values left after the k
failing records, and for update operations a record missing its lookup key
yields the required-field detail for the key attribute at that record's
index instead of aborting. -/
theorem C3_no_early_abort (cfg : SerializerCfg Rec Val)
    (items : List Rec) (ret : List Val) (errors : List ErrDetail)
    (hloop : internalLoop cfg items = .ok (ret, errors)) :
    errors.length = items.length
    ∧ ret.length = items.length - (items.filter (recordFailsB cfg)).length
    ∧ ∀ (i : Nat) (item : Rec), items[i]? = some item → cfg.isCreateAction = false →
        cfg.hasKey item = false →
        errors[i]? = some (requiredDetail cfg.id_attr) := by
  obtain ⟨h1, h2, h3⟩ := internalLoop_spec cfg items ret errors hloop
  refine ⟨h1, by omega, ?_⟩
  intro i item hi hcr hkey
  obtain ⟨ov, d, hro, hge, _⟩ := h3 i item hi
  have : recordOutcome cfg item = .ok (none, requiredDetail cfg.id_attr) := by
    simp [recordOutcome, hcr, hkey]
  rw [this] at hro
  simp only [Except.ok.injEq, Prod.mk.injEq] at hro
  rw [← hro.2] at hge
  exact hge

theorem C3_witness :
    internalLoop wcfg [2, 9, 3]
      = .ok ([2], [[], requiredDetail "id", [("f", [⟨"bad", "invalid"⟩])]]) ∧
    (([[], requiredDetail "id", [("f", [⟨"bad", "invalid"⟩])]] : List ErrDetail).length
        = ([2, 9, 3] : List Nat).length
      ∧ ([2] : List Nat).length
          = ([2, 9, 3] : List Nat).length
            - (([2, 9, 3] : List Nat).filter (recordFailsB wcfg)).length
      ∧ ∀ (i : Nat) (item : Nat), ([2, 9, 3] : List Nat)[i]? = some item →
          wcfg.isCreateAction = false → wcfg.hasKey item = false →
          ([[], requiredDetail "id", [("f", [⟨"bad", "invalid"⟩])]] :
              List ErrDetail)[i]? = some (requiredDetail wcfg.id_attr)) :=
  ⟨rfl, C3_no_early_abort wcfg [2, 9, 3] [2]
    [[], requiredDetail "id", [("f", [⟨"bad", "invalid"⟩])]] rfl⟩

/-! ### Representation filtering (C4) -/

theorem mem_errPositions_lst {l : List ErrDetail} {i : Nat} :
    i ∈ errPositions (.lst l) ↔ ∃ d, l[i]? = some d ∧ d.isEmpty = false := by
  simp only [errPositions, List.mem_map, List.mem_filter]
  constructor
  · rintro ⟨⟨j, d⟩, ⟨hmem, hd⟩, rfl⟩
    exact ⟨d, List.mk_mem_enum_iff_getElem?.1 hmem, by simpa using hd⟩
  · rintro ⟨d, hd, hne⟩
    exact ⟨(i, d), ⟨List.mk_mem_enum_iff_getElem?.2 hd, by simp [hne]⟩, rfl⟩

theorem renderSpec_cons (rep : α → β) (e : ErrDetail) (es : List ErrDetail)
    (a : α) (as : List α) :
    renderSpec rep (e :: es) (a :: as)
      = if e.isEmpty then rep a :: renderSpec rep es as
        else renderSpec rep es as := by
  by_cases he : e.isEmpty
  · have hnil : e = [] := by simpa [List.isEmpty_iff] using he
    subst hnil
    simp [renderSpec]
  · have hne : e ≠ [] := by simpa [List.isEmpty_iff] using he
    simp [renderSpec, he, hne]

theorem to_repr_enumFrom_aux (rep : α → β) (errs0 : List ErrDetail) :
    ∀ (data : List α) (k : Nat) (errs : List ErrDetail),
      errs.length = data.length →
      (∀ j, errs0[k + j]? = errs[j]?) →
      (((data.enumFrom k).filter
          (fun p => decide (p.1 ∉ errPositions (.lst errs0)))).map Prod.snd).map rep
        = renderSpec rep errs data
  | [], k, errs, hlen, _hk => by
    have : errs = [] := List.length_eq_zero.mp (by simpa using hlen)
    subst this
    rfl
  | a :: as, k, errs, hlen, hk => by
    cases errs with
    | nil => simp at hlen
    | cons e es =>
      have hk0 : errs0[k]? = some e := by simpa using hk 0
      have hmem : k ∈ errPositions (.lst errs0) ↔ e.isEmpty = false := by
        rw [mem_errPositions_lst]
        constructor
        · rintro ⟨d, hd, hne⟩
          rw [hk0] at hd
          cases hd
          exact hne
        · intro hne
          exact ⟨e, hk0, hne⟩
      have hrec := to_repr_enumFrom_aux rep errs0 as (k + 1) es
        (by simpa using hlen)
        (fun j => by
          have := hk (j + 1)
          simpa [Nat.add_assoc, Nat.add_comm 1 j] using this)
      show (((( k, a) :: as.enumFrom (k + 1)).filter
          (fun p => decide (p.1 ∉ errPositions (.lst errs0)))).map Prod.snd).map rep
        = renderSpec rep (e :: es) (a :: as)
      rw [renderSpec_cons]
      by_cases he : e.isEmpty
      · have hnotmem : k ∉ errPositions (.lst errs0) := by
          rw [hmem]; simp [he]
        rw [List.filter_cons, if_pos (by simpa using hnotmem)]
        simp only [List.map_cons, he, if_true]
        rw [hrec]
      · have hmem2 : k ∈ errPositions (.lst errs0) := by
          rw [hmem]; simpa using he
        rw [List.filter_cons, if_neg (by simpa using hmem2)]
        simp only [Bool.not_eq_true] at he
        simp only [he, Bool.false_eq_true, if_false]
        rw [hrec]

/-- C4: over position-aligned object and outcome lists, the representation
step drops exactly the positions whose outcome entry is nonempty and keeps
the remaining representations in their original relative order (stated as
agreement with the spec-side filter renderSpec). -/
theorem C4_representation_filtering (rep : α → β) (errs : List ErrDetail)
    (data : List α) (h : errs.length = data.length) :
    to_representation rep (some (.lst errs)) data = renderSpec rep errs data := by
  cases data with
  | nil =>
    have : errs = [] := List.length_eq_zero.mp (by simpa using h)
    subst this
    rfl
  | cons a as =>
    show (((a :: as).enum.filter
        (fun p => decide (p.1 ∉ errPositions (.lst errs)))).map Prod.snd).map rep
      = renderSpec rep errs (a :: as)
    exact to_repr_enumFrom_aux rep errs (a :: as) 0 errs h (fun j => by simp)

theorem C4_witness :
    (([[], [("f", [⟨"m", "c"⟩])], []] : List ErrDetail).length
        = ([5, 6, 7] : List Nat).length)
    ∧ to_representation (fun n => n * 10)
        (some (.lst [[], [("f", [⟨"m", "c"⟩])], []])) [5, 6, 7]
      = renderSpec (fun n => n * 10) [[], [("f", [⟨"m", "c"⟩])], []] [5, 6, 7] :=
  ⟨by decide, C4_representation_filtering (fun n => n * 10)
    [[], [("f", [⟨"m", "c"⟩])], []] [5, 6, 7] (by decide)⟩

/-! ### Fatal escalation and shape errors (C6, C10) -/

/-- C6: a bulk update whose only validation error is the shape-level
not_a_list non-field error (the non-list body) raises a single fatal
ValidationError carrying that error, instead of returning a response. -/
theorem C6_not_a_list_escalates (cfg : SerializerCfg Rec (LookupKey × D))
    (keyOf : Obj → LookupKey) (childUpdate : Obj → Option D → Obj)
    (rep : Obj → Rp) (repV : LookupKey × D → Rp) (instanceQs : List Obj)
    (tn : String) :
    EasyBulkUpdateModelMixin.bulk_update cfg keyOf childUpdate rep repV
        instanceQs (.notList tn)
      = .error (.validationMsg (not_a_list_message tn) "not_a_list") := rfl

/-- C10: a shape-level failure under is_valid with raise_exception off
returns False and leaves validated_data unset, so the data property then
raises AssertionError. -/
theorem C10_shape_error_data_assertion (cfg : SerializerCfg Rec Val)
    (rep : Obj → Rp) (repV : Val → Rp) (tn : String)
    (inst : Option (List Obj)) (ae : Bool) :
    is_valid cfg false (initState (.notList tn) inst ae)
      = .ok (false, { initial_data := Payload.notList tn, validated_data := none,
                      errorsAttr := some (.dct (notAListDetail tn)),
                      instanceRef := inst, allow_errors := ae })
    ∧ dataProp rep repV
        ({ initial_data := Payload.notList tn, validated_data := none,
           errorsAttr := some (.dct (notAListDetail tn)),
           instanceRef := inst, allow_errors := ae } : SerializerState Rec Val Obj)
      = .error .assertionError :=
  ⟨rfl, rfl⟩

/-! ### Destroy scope guard (C7) -/

/-- C7: bulk destroy refuses with 400 and deletes nothing exactly when the
filtered queryset is the identical object as the unfiltered one; a filter
returning any other queryset object deletes exactly its rows with 204. -/
theorem C7_destroy_scope_guard (gq : QuerySet Obj)
    (fq : QuerySet Obj → QuerySet Obj) :
    ((fq gq).objId = gq.objId →
      BulkDestroyModelMixin.bulk_destroy gq fq = (400, []))
    ∧ ((fq gq).objId ≠ gq.objId →
      BulkDestroyModelMixin.bulk_destroy gq fq = (204, (fq gq).elems)) := by
  constructor
  · intro h
    simp [BulkDestroyModelMixin.bulk_destroy, BulkDestroyModelMixin.allow_bulk_destroy, h]
  · intro h
    simp [BulkDestroyModelMixin.bulk_destroy, BulkDestroyModelMixin.allow_bulk_destroy,
      bne_iff_ne, Ne.symm h]

theorem C7_witness :
    (((fun (q : QuerySet Nat) => q) ⟨0, [1, 2]⟩).objId = (⟨0, [1, 2]⟩ : QuerySet Nat).objId
      ∧ BulkDestroyModelMixin.bulk_destroy (⟨0, [1, 2]⟩ : QuerySet Nat) (fun q => q)
          = (400, []))
    ∧ (((fun (_ : QuerySet Nat) => (⟨1, [2]⟩ : QuerySet Nat)) ⟨0, [1, 2]⟩).objId
          ≠ (⟨0, [1, 2]⟩ : QuerySet Nat).objId
      ∧ BulkDestroyModelMixin.bulk_destroy (⟨0, [1, 2]⟩ : QuerySet Nat)
          (fun _ => ⟨1, [2]⟩) = (204, [2])) :=
  ⟨⟨rfl, (C7_destroy_scope_guard ⟨0, [1, 2]⟩ (fun q => q)).1 rfl⟩,
   ⟨by decide, (C7_destroy_scope_guard ⟨0, [1, 2]⟩ (fun _ => ⟨1, [2]⟩)).2 (by decide)⟩⟩

/-! ### Dict semantics of the bulk-update keying (C5, C9) -/

theorem dictGet_cons (k2 : LookupKey) (v2 : D) (rest : List (LookupKey × D))
    (k1 : LookupKey) :
    dictGet ((k2, v2) :: rest) k1 = if k2 = k1 then some v2 else dictGet rest k1 := by
  by_cases h : k2 = k1
  · rw [if_pos h]
    simp only [dictGet]
    rw [List.find?_cons_of_pos _ (by simp [h])]
    rfl
  · rw [if_neg h]
    simp only [dictGet]
    rw [List.find?_cons_of_neg _ (by simp [h])]

theorem dictGet_dictInsert (k : LookupKey) (v : D) (m : List (LookupKey × D))
    (k1 : LookupKey) :
    dictGet (dictInsert k v m) k1 = if k1 = k then some v else dictGet m k1 := by
  induction m with
  | nil =>
    show dictGet [(k, v)] k1 = if k1 = k then some v else dictGet [] k1
    rw [dictGet_cons]
    by_cases h : k1 = k
    · simp [h]
    · rw [if_neg (fun hh => h (Eq.symm hh)), if_neg h]
  | cons kv rest ih =>
    obtain ⟨k2, v2⟩ := kv
    by_cases h2 : k2 = k
    · subst h2
      have hred : dictInsert k2 v ((k2, v2) :: rest) = (k2, v) :: rest := by
        simp [dictInsert]
      rw [hred, dictGet_cons, dictGet_cons]
      by_cases h : k1 = k2
      · simp [h]
      · rw [if_neg (fun hh => h (Eq.symm hh)), if_neg (fun hh => h (Eq.symm hh)),
          if_neg h]
    · have hred : dictInsert k v ((k2, v2) :: rest)
          = (k2, v2) :: dictInsert k v rest := by
        simp [dictInsert, h2]
      rw [hred, dictGet_cons, ih, dictGet_cons]
      by_cases h : k2 = k1
      · have hne : ¬ k1 = k := fun hh => h2 (by rw [h, hh])
        simp [h, hne]
      · by_cases hk : k1 = k <;> simp [h, hk, h2]

theorem buildById_append_singleton (l : List (LookupKey × D))
    (kv : LookupKey × D) :
    buildById (l ++ [kv]) = dictInsert kv.1 kv.2 (buildById l) := by
  simp [buildById, List.foldl_append]

theorem buildById_get (l : List (LookupKey × D)) (k : LookupKey) :
    dictGet (buildById l) k
      = ((l.filter fun kv => kv.1 == k).getLast?).map Prod.snd := by
  induction l using List.reverseRecOn with
  | nil => rfl
  | append_singleton init kv ih =>
    rw [buildById_append_singleton, dictGet_dictInsert]
    by_cases hk : kv.1 = k
    · rw [if_pos (Eq.symm hk)]
      rw [List.filter_append]
      have h1 : ([kv].filter fun p => p.1 == k) = [kv] := by
        simp [List.filter_cons, hk]
      rw [h1, List.getLast?_concat]
      rfl
    · rw [if_neg (fun h => hk (Eq.symm h))]
      rw [List.filter_append]
      have h1 : ([kv].filter fun p => p.1 == k) = [] := by
        simp [List.filter_cons, hk]
      rw [h1, List.append_nil, ih]

theorem mem_keys_dictInsert (k : LookupKey) (v : D) (m : List (LookupKey × D))
    (k1 : LookupKey) :
    k1 ∈ (dictInsert k v m).map Prod.fst ↔ k1 = k ∨ k1 ∈ m.map Prod.fst := by
  induction m with
  | nil => simp [dictInsert]
  | cons kv rest ih =>
    obtain ⟨k2, v2⟩ := kv
    by_cases h2 : k2 = k
    · subst h2
      have hred : dictInsert k2 v ((k2, v2) :: rest) = (k2, v) :: rest := by
        simp [dictInsert]
      rw [hred]
      simp only [List.map_cons, List.mem_cons]
      tauto
    · have hred : dictInsert k v ((k2, v2) :: rest)
          = (k2, v2) :: dictInsert k v rest := by
        simp [dictInsert, h2]
      rw [hred]
      simp only [List.map_cons, List.mem_cons, ih]
      tauto

theorem nodup_keys_dictInsert (k : LookupKey) (v : D) (m : List (LookupKey × D))
    (h : (m.map Prod.fst).Nodup) : ((dictInsert k v m).map Prod.fst).Nodup := by
  induction m with
  | nil => simp [dictInsert]
  | cons kv rest ih =>
    obtain ⟨k2, v2⟩ := kv
    simp only [List.map_cons, List.nodup_cons] at h
    by_cases h2 : k2 = k
    · subst h2
      have hred : dictInsert k2 v ((k2, v2) :: rest) = (k2, v) :: rest := by
        simp [dictInsert]
      rw [hred]
      simp only [List.map_cons, List.nodup_cons]
      exact h
    · have hred : dictInsert k v ((k2, v2) :: rest)
          = (k2, v2) :: dictInsert k v rest := by
        simp [dictInsert, h2]
      rw [hred]
      simp only [List.map_cons, List.nodup_cons]
      refine ⟨?_, ih h.2⟩
      rw [mem_keys_dictInsert]
      rintro (hh | hh)
      · exact h2 hh
      · exact h.1 hh

theorem mem_keys_buildById (l : List (LookupKey × D)) (k : LookupKey) :
    k ∈ (buildById l).map Prod.fst ↔ k ∈ l.map Prod.fst := by
  induction l using List.reverseRecOn with
  | nil => simp [buildById]
  | append_singleton init kv ih =>
    rw [buildById_append_singleton, mem_keys_dictInsert]
    simp only [List.map_append, List.mem_append, ih]
    simp [Or.comm]

theorem nodup_keys_buildById (l : List (LookupKey × D)) :
    ((buildById l).map Prod.fst).Nodup := by
  induction l using List.reverseRecOn with
  | nil => simp [buildById]
  | append_singleton init kv ih =>
    rw [buildById_append_singleton]
    exact nodup_keys_dictInsert kv.1 kv.2 _ ih

theorem buildById_length_eq_dedup (l : List (LookupKey × D)) :
    (buildById l).length = (l.map Prod.fst).dedup.length := by
  have hperm : List.Perm ((buildById l).map Prod.fst) ((l.map Prod.fst).dedup) := by
    refine (List.perm_ext_iff_of_nodup (nodup_keys_buildById l)
      (List.nodup_dedup _)).2 ?_
    intro a
    rw [mem_keys_buildById, List.mem_dedup]
  have := hperm.length_eq
  simpa using this

/-- Keys of the comprehension are all fine when every input key is fine. -/
theorem buildById_all_good (l : List (LookupKey × D))
    (hgood : ∀ kv ∈ l, kv.1.truthy = true ∧ kv.1.isclass = false) :
    (buildById l).all (fun kv => kv.1.truthy && !kv.1.isclass) = true := by
  rw [List.all_eq_true]
  intro pr hpr
  have hk : pr.1 ∈ (buildById l).map Prod.fst := List.mem_map_of_mem _ hpr
  rw [mem_keys_buildById] at hk
  obtain ⟨kv, hkv, hfst⟩ := List.mem_map.1 hk
  obtain ⟨ht, hc⟩ := hgood kv hkv
  rw [hfst] at ht hc
  simp [ht, hc]

/-- C5: a bulk update whose validated data contains a falsy or class-valued
lookup key fails as a whole with the empty-message ValidationError, and one
whose batched lookup matches fewer rows than there are distinct requested
keys fails as a whole with the could-not-find error; in both cases the
result is a fatal error, so no per-entity update is produced. -/
theorem C5_update_fatal_errors (keyOf : Obj → LookupKey)
    (childUpdate : Obj → Option D → Obj) (qs : List Obj)
    (l : List (LookupKey × D)) :
    ((∃ kv, kv ∈ l ∧ (kv.1.truthy = false ∨ kv.1.isclass = true)) →
      BulkListSerializer.update keyOf childUpdate qs l
        = .error (.validationMsg "" "invalid"))
    ∧ ((∀ kv ∈ l, kv.1.truthy = true ∧ kv.1.isclass = false) →
       (qs.filter fun o =>
           ((buildById l).map Prod.fst).contains (keyOf o)).length
         < (l.map Prod.fst).dedup.length →
       BulkListSerializer.update keyOf childUpdate qs l
         = .error (.validationMsg "Could not find all objects to update."
             "invalid")) := by
  constructor
  · rintro ⟨kv, hkv, hbad⟩
    have hk : kv.1 ∈ (buildById l).map Prod.fst := by
      rw [mem_keys_buildById]
      exact List.mem_map_of_mem _ hkv
    obtain ⟨pr, hpr, hfst⟩ := List.mem_map.1 hk
    have hall : (buildById l).all (fun kv => kv.1.truthy && !kv.1.isclass)
        = false := by
      rw [Bool.eq_false_iff]
      intro hall
      rw [List.all_eq_true] at hall
      have := hall pr hpr
      rw [hfst] at this
      rcases hbad with hb | hb <;> simp [hb] at this
    simp [BulkListSerializer.update, hall]
  · intro hgood hlt
    have hall := buildById_all_good l hgood
    have hne : (buildById l).length
        ≠ (qs.filter fun o =>
            ((buildById l).map Prod.fst).contains (keyOf o)).length := by
      rw [buildById_length_eq_dedup]
      omega
    simp [BulkListSerializer.update, hall]
    intro hcontra
    exact absurd (by simpa using hcontra) hne

theorem C5_witness :
    ((((LookupKey.natKey 0, 7) : LookupKey × Nat) ∈
          [((LookupKey.natKey 0 : LookupKey), 7)]
        ∧ ((LookupKey.natKey 0).truthy = false ∨ (LookupKey.natKey 0).isclass = true))
      ∧ BulkListSerializer.update (fun (o : LookupKey) => o) (fun o _ => o)
          [LookupKey.natKey 1] [(LookupKey.natKey 0, 7)]
          = .error (.validationMsg "" "invalid"))
    ∧ BulkListSerializer.update (fun (o : LookupKey) => o) (fun o _ => o)
        [LookupKey.natKey 1] [(LookupKey.natKey 1, 7), (LookupKey.natKey 2, 8)]
        = .error (.validationMsg "Could not find all objects to update."
            "invalid") :=
  ⟨⟨⟨by decide, by decide⟩,
    (C5_update_fatal_errors (fun (o : LookupKey) => o) (fun o _ => o)
      [LookupKey.natKey 1] [(LookupKey.natKey 0, 7)]).1
      ⟨(LookupKey.natKey 0, 7), by decide, by decide⟩⟩,
   (C5_update_fatal_errors (fun (o : LookupKey) => o) (fun o _ => o)
      [LookupKey.natKey 1] [(LookupKey.natKey 1, 7), (LookupKey.natKey 2, 8)]).2
      (by decide) (by decide)⟩

/-- C9: duplicated lookup keys are silently collapsed by the comprehension
(last record's data wins, earlier duplicates discarded with no error), the
comprehension holds one entry per distinct key, and the could-not-find
check compares that distinct count with the matched-row count, so duplicate
keys alone never trigger it (the update succeeds whenever the matched count
equals the distinct-key count and the keys are usable). -/
theorem C9_duplicate_lookup_keys (keyOf : Obj → LookupKey)
    (childUpdate : Obj → Option D → Obj) (qs : List Obj)
    (l : List (LookupKey × D)) :
    (∀ k, dictGet (buildById l) k
        = ((l.filter fun kv => kv.1 == k).getLast?).map Prod.snd)
    ∧ (buildById l).length = (l.map Prod.fst).dedup.length
    ∧ ((∀ kv ∈ l, kv.1.truthy = true ∧ kv.1.isclass = false) →
       (qs.filter fun o =>
           ((buildById l).map Prod.fst).contains (keyOf o)).length
         = (l.map Prod.fst).dedup.length →
       BulkListSerializer.update keyOf childUpdate qs l
         = .ok ((qs.filter fun o =>
             ((buildById l).map Prod.fst).contains (keyOf o)).map fun o =>
               childUpdate o (dictGet (buildById l) (keyOf o)))) := by
  refine ⟨fun k => buildById_get l k, buildById_length_eq_dedup l, ?_⟩
  intro hgood heq
  have hall := buildById_all_good l hgood
  have hlen : (buildById l).length
      = (qs.filter fun o =>
          ((buildById l).map Prod.fst).contains (keyOf o)).length := by
    rw [buildById_length_eq_dedup]
    omega
  simp [BulkListSerializer.update, hall, hlen]

theorem C9_witness :
    (∀ k, dictGet (buildById [(LookupKey.natKey 1, 10), (LookupKey.natKey 1, 20)]) k
        = ((([(LookupKey.natKey 1, 10), (LookupKey.natKey 1, 20)] :
              List (LookupKey × Nat)).filter fun kv => kv.1 == k).getLast?).map
            Prod.snd)
    ∧ (buildById [(LookupKey.natKey 1, 10), (LookupKey.natKey 1, 20)]).length
        = (([(LookupKey.natKey 1, 10), (LookupKey.natKey 1, 20)] :
            List (LookupKey × Nat)).map Prod.fst).dedup.length
    ∧ BulkListSerializer.update (fun (o : LookupKey) => o)
        (fun _ od => LookupKey.natKey (od.getD 0)) [LookupKey.natKey 1]
        [(LookupKey.natKey 1, 10), (LookupKey.natKey 1, 20)]
        = .ok [LookupKey.natKey 20] := by
  obtain ⟨h1, h2, h3⟩ := C9_duplicate_lookup_keys (fun (o : LookupKey) => o)
    (fun _ od => LookupKey.natKey (od.getD 0)) [LookupKey.natKey 1]
    [(LookupKey.natKey 1, 10), (LookupKey.natKey 1, 20)]
  exact ⟨h1, h2, by rw [h3 (by decide) (by decide)]; rfl⟩

/-! ### Destroy selection modes (C8) -/

/-- C8 counterexample: with no ids parameter the destroy does not operate on
the full filtered queryset.  Base queryset [1, 2, 3], a pass-through filter
returning a fresh object: the call deletes nothing (the id filter is applied
with the empty id list), although the full filtered queryset holds
[1, 2, 3]. -/
theorem C8_counterexample :
    EasyBulkDestroyModelMixin.bulk_destroy (⟨0, [1, 2, 3]⟩ : QuerySet Nat)
        (fun o => o) (fun q => ⟨q.objId + 1, q.elems⟩) 5 none
      = .ok (204, [])
    ∧ ((fun (q : QuerySet Nat) => (⟨q.objId + 1, q.elems⟩ : QuerySet Nat))
        ⟨0, [1, 2, 3]⟩).elems = [1, 2, 3]
    ∧ ([] : List Nat) ≠ [1, 2, 3] :=
  ⟨rfl, rfl, by decide⟩

/-- C8 as amended: a truthy ids parameter must match the digits regex (a
mismatch is a ParseError and nothing is deleted), a matching parameter
selects the listed ids intersected with the filtered queryset, and an
absent parameter filters the base queryset with the EMPTY id list, so the
destroy operates on the empty selection and deletes nothing (not on the
full filtered queryset).  The view filter is assumed to be a content filter
returning a fresh queryset object. -/
theorem C8_destroy_selection_modes (base : QuerySet Obj) (idOf : Obj → Nat)
    (p : Obj → Bool) (fq : QuerySet Obj → QuerySet Obj) (freshId : Nat)
    (hf : ∀ q, fq q = ⟨q.objId + 1, q.elems.filter p⟩) :
    (∀ s, s.isEmpty = false → idsFormatOk s = false →
        EasyBulkDestroyModelMixin.bulk_destroy base idOf fq freshId (some s)
          = .error (.parseError "Invalid ids"))
    ∧ (∀ s, s.isEmpty = false → idsFormatOk s = true →
        EasyBulkDestroyModelMixin.bulk_destroy base idOf fq freshId (some s)
          = .ok (204, (base.elems.filter fun o =>
              ((splitCommaChars s.data).map digitsToNat).contains (idOf o)).filter p))
    ∧ EasyBulkDestroyModelMixin.bulk_destroy base idOf fq freshId none
        = .ok (204, []) := by
  refine ⟨?_, ?_, ?_⟩
  · intro s hne hbad
    simp [EasyBulkDestroyModelMixin.bulk_destroy, hne, hbad]
  · intro s hne hok
    simp only [EasyBulkDestroyModelMixin.bulk_destroy, hne, hok, Bool.not_false,
      Bool.not_true, if_true, if_false, Bool.false_eq_true, hf,
      BulkDestroyModelMixin.allow_bulk_destroy]
    simp
  · simp only [EasyBulkDestroyModelMixin.bulk_destroy, hf,
      BulkDestroyModelMixin.allow_bulk_destroy]
    simp

theorem C8_witness :
    (∀ q : QuerySet Nat,
        (fun (q : QuerySet Nat) =>
            (⟨q.objId + 1, q.elems.filter (fun _ => true)⟩ : QuerySet Nat)) q
          = ⟨q.objId + 1, q.elems.filter (fun _ => true)⟩)
    ∧ ("1,2,abc".isEmpty = false ∧ idsFormatOk "1,2,abc" = false
      ∧ EasyBulkDestroyModelMixin.bulk_destroy (⟨0, [1, 2, 3]⟩ : QuerySet Nat)
          (fun o => o) (fun q => ⟨q.objId + 1, q.elems.filter (fun _ => true)⟩)
          5 (some "1,2,abc")
        = .error (.parseError "Invalid ids"))
    ∧ ("1,3".isEmpty = false ∧ idsFormatOk "1,3" = true
      ∧ EasyBulkDestroyModelMixin.bulk_destroy (⟨0, [1, 2, 3]⟩ : QuerySet Nat)
          (fun o => o) (fun q => ⟨q.objId + 1, q.elems.filter (fun _ => true)⟩)
          5 (some "1,3")
        = .ok (204, (([1, 2, 3] : List Nat).filter fun o =>
            ((splitCommaChars "1,3".data).map digitsToNat).contains o).filter
              (fun _ => true)))
    ∧ EasyBulkDestroyModelMixin.bulk_destroy (⟨0, [1, 2, 3]⟩ : QuerySet Nat)
        (fun o => o) (fun q => ⟨q.objId + 1, q.elems.filter (fun _ => true)⟩)
        5 none
      = .ok (204, []) := by
  have hf : ∀ q : QuerySet Nat,
      (fun (q : QuerySet Nat) =>
          (⟨q.objId + 1, q.elems.filter (fun _ => true)⟩ : QuerySet Nat)) q
        = ⟨q.objId + 1, q.elems.filter (fun _ => true)⟩ := fun _ => rfl
  obtain ⟨ha, hb, hc⟩ := C8_destroy_selection_modes (⟨0, [1, 2, 3]⟩ : QuerySet Nat)
    (fun o => o) (fun _ => true)
    (fun q => ⟨q.objId + 1, q.elems.filter (fun _ => true)⟩) 5 hf
  exact ⟨hf, ⟨by decide, by decide, ha "1,2,abc" (by decide) (by decide)⟩,
    ⟨by decide, by decide, hb "1,3" (by decide) (by decide)⟩, hc⟩

/-! ### Bulk create response assembly (C1) -/

theorem to_representation_no_errors (rep : α → β) (l : List α) :
    to_representation rep (some (.lst [])) l = l.map rep := by
  cases l with
  | nil => rfl
  | cons a as =>
    simp [to_representation, errPositions, List.filter_true, List.enum_map_snd]

/-- The Easy bulk create pipeline reduces, for a list body whose tolerant
loop yields (ret, errors), to the 207 multi-status response when any entry
is truthy and to the 201 plain response otherwise. -/
theorem create_unfold (cv : Rec → Except ErrDetail Val) (cc : Val → Obj)
    (rep : Obj → Rp) (repV : Val → Rp) (items : List Rec)
    (ret : List Val) (errors : List ErrDetail)
    (hloop : internalLoop (createCfg cv) items = .ok (ret, errors)) :
    EasyBulkCreateModelMixin.create cv cc rep repV items =
      if errors.any (fun d => !d.isEmpty) then
        .ok (207, .multi (build_multi_status_response ((ret.map cc).map rep) errors))
      else .ok (201, .plain ((ret.map cc).map rep)) := by
  have hti : to_internal_value (createCfg cv) (Payload.items items)
      = .ok (ret, errors) := by
    simp only [to_internal_value, createCfg]
    exact hloop
  have hrv : run_validation (createCfg cv) (Payload.items items)
      = .ok (ret, errors) := by
    simp [run_validation, hti]
  by_cases hany : errors.any (fun d => !d.isEmpty)
  · have hne : errors.isEmpty = false := by
      cases errors with
      | nil => simp at hany
      | cons e es => rfl
    simp [EasyBulkCreateModelMixin.create, is_valid, initState, hrv, hany, hne,
      ErrorsVal.truthy, errsAttrTruthy, dataProp, to_representation_no_errors,
      multiStatusOrCrash]
  · simp only [Bool.not_eq_true] at hany
    simp [EasyBulkCreateModelMixin.create, is_valid, initState, hrv, hany,
      ErrorsVal.truthy, errsAttrTruthy, dataProp, to_representation_no_errors]

theorem bms_length (data : List Rp) (errors : List ErrDetail) :
    (build_multi_status_response data errors).length = errors.length := by
  induction errors generalizing data with
  | nil => rfl
  | cons e rest ih =>
    by_cases he : e.isEmpty <;>
      simp [build_multi_status_response, he, ih]

theorem getElem?_tail_succ (l : List α) (n : Nat) : l.tail[n]? = l[n + 1]? := by
  cases l <;> simp

/-- Per-index shape of a multi-status body: position i carries the failure
detail when entry i is truthy, and otherwise the success record holding the
data element indexed by the number of falsy entries before i (the front of
the data list having been consumed once per earlier falsy entry). -/
theorem bms_get (data : List Rp) (errors : List ErrDetail) (i : Nat) :
    (build_multi_status_response data errors)[i]? =
      (errors[i]?).map fun d =>
        if d.isEmpty then
          MSRecord.success
            (data[((errors.take i).filter (fun x => x.isEmpty)).length]?)
        else MSRecord.failure d := by
  induction errors generalizing data i with
  | nil => simp [build_multi_status_response]
  | cons e rest ih =>
    by_cases he : e.isEmpty
    · have hred : build_multi_status_response data (e :: rest)
          = .success data.head? :: build_multi_status_response data.tail rest := by
        simp [build_multi_status_response, he]
      cases i with
      | zero =>
        rw [hred]
        have hnil : e = [] := by simpa [List.isEmpty_iff] using he
        simp [hnil, List.head?_eq_getElem?]
      | succ n =>
        rw [hred]
        simp only [List.getElem?_cons_succ]
        rw [ih]
        have htake : ((e :: rest).take (n + 1)).filter (fun x => x.isEmpty)
            = e :: (rest.take n).filter (fun x => x.isEmpty) := by
          rw [List.take_succ_cons, List.filter_cons_of_pos he]
        rw [htake]
        simp [getElem?_tail_succ]
    · have he' : e.isEmpty = false := by simpa using he
      have hred : build_multi_status_response data (e :: rest)
          = .failure e :: build_multi_status_response data rest := by
        simp [build_multi_status_response, he']
      cases i with
      | zero =>
        rw [hred]
        have hnil : e ≠ [] := by simpa [List.isEmpty_iff] using he'
        simp [he', hnil]
      | succ n =>
        rw [hred]
        simp only [List.getElem?_cons_succ]
        rw [ih]
        have htake : ((e :: rest).take (n + 1)).filter (fun x => x.isEmpty)
            = (rest.take n).filter (fun x => x.isEmpty) := by
          rw [List.take_succ_cons, List.filter_cons_of_neg (by simp [he'])]
        rw [htake]

/-- Given the record-validator contract, a completed tolerant loop produces
exactly one success per falsy error entry. -/
theorem internalLoop_ret_count (cfg : SerializerCfg Rec Val)
    (hchild : ∀ r dd, cfg.childValidate r = .error dd → dd ≠ []) :
    ∀ (items : List Rec) (ret : List Val) (errors : List ErrDetail),
      internalLoop cfg items = .ok (ret, errors) →
      ret.length = (errors.filter (fun d => d.isEmpty)).length
  | [], ret, errors, h => by
    simp only [internalLoop, Except.ok.injEq, Prod.mk.injEq] at h
    obtain ⟨h1, h2⟩ := h
    subst h1; subst h2
    rfl
  | item :: rest, ret, errors, h => by
    rw [internalLoop] at h
    cases ho : recordOutcome cfg item with
    | error e => rw [ho] at h; cases h
    | ok od =>
      obtain ⟨ov, d⟩ := od
      rw [ho] at h
      cases hl : internalLoop cfg rest with
      | error e => rw [hl] at h; cases h
      | ok rl =>
        obtain ⟨ret1, errs1⟩ := rl
        rw [hl] at h
        simp only [Except.ok.injEq, Prod.mk.injEq] at h
        obtain ⟨h1, h2⟩ := h
        subst h2
        have ih := internalLoop_ret_count cfg hchild rest ret1 errs1 hl
        cases ov with
        | some v =>
          have hd : d = [] := recordOutcome_some_empty ho
          subst hd
          rw [← h1]
          simp [List.filter_cons, ih]
        | none =>
          have hd : d ≠ [] := recordOutcome_none_detail hchild ho
          have hdf : d.isEmpty = false := by
            simpa [List.isEmpty_iff] using hd
          rw [← h1]
          simp [List.filter_cons, hdf, ih]

theorem count_take_lt {l : List ErrDetail} {i : Nat} (h : l[i]? = some []) :
    ((l.take i).filter (fun d => d.isEmpty)).length
      < (l.filter (fun d => d.isEmpty)).length := by
  have hlt : i < l.length := by
    by_contra hge
    rw [List.getElem?_eq_none (by omega)] at h
    cases h
  have hnil : l[i] = [] := by
    have := List.getElem?_eq_getElem hlt
    rw [this] at h
    simpa using h
  have hdrop : l.drop i = [] :: l.drop (i + 1) := by
    rw [List.drop_eq_getElem_cons hlt, hnil]
  conv_rhs => rw [← List.take_append_drop i l]
  rw [List.filter_append, hdrop, List.filter_cons]
  simp

/-- C1: for every list input in the Easy bulk create flow (given the
record-validator contract), when no record is invalid the response is the
201 plain list of created representations; otherwise the response is 207
with one element per input position, a failure carrying entry i's detail at
every invalid position and a success consuming the next created
representation in order at every valid position. -/
theorem C1_bulk_create_response (cv : Rec → Except ErrDetail Val)
    (cc : Val → Obj) (rep : Obj → Rp) (repV : Val → Rp) (items : List Rec)
    (ret : List Val) (errors : List ErrDetail)
    (hchild : ∀ r dd, cv r = .error dd → dd ≠ [])
    (hloop : internalLoop (createCfg cv) items = .ok (ret, errors)) :
    (errors.all (fun d => d.isEmpty) = true →
      EasyBulkCreateModelMixin.create cv cc rep repV items
        = .ok (201, .plain ((ret.map cc).map rep)))
    ∧ (errors.any (fun d => !d.isEmpty) = true →
      ∃ body, EasyBulkCreateModelMixin.create cv cc rep repV items
          = .ok (207, .multi body)
        ∧ body.length = items.length
        ∧ (∀ (i : Nat) (d : ErrDetail), errors[i]? = some d → d ≠ [] →
            body[i]? = some (.failure d))
        ∧ (∀ (i : Nat), errors[i]? = some [] →
            ∃ r, ((ret.map cc).map rep)[((errors.take i).filter
                  (fun d => d.isEmpty)).length]? = some r
              ∧ body[i]? = some (.success (some r)))) := by
  constructor
  · intro hall
    have hnotany : errors.any (fun d => !d.isEmpty) = false := by
      rw [Bool.eq_false_iff]
      intro hany
      rw [List.any_eq_true] at hany
      obtain ⟨d, hd, hne⟩ := hany
      rw [List.all_eq_true] at hall
      have := hall d hd
      simp [this] at hne
    rw [create_unfold cv cc rep repV items ret errors hloop, hnotany]
    simp
  · intro hany
    refine ⟨build_multi_status_response ((ret.map cc).map rep) errors,
      by rw [create_unfold cv cc rep repV items ret errors hloop, if_pos hany],
      ?_, ?_, ?_⟩
    · rw [bms_length]
      exact (internalLoop_spec (createCfg cv) items ret errors hloop).1
    · intro i d hd hne
      rw [bms_get, hd]
      have : d.isEmpty = false := by simpa [List.isEmpty_iff] using hne
      simp [this, hne]
    · intro i hi
      have hcnt : ((errors.take i).filter (fun d => d.isEmpty)).length
          < ((ret.map cc).map rep).length := by
        have hretlen := internalLoop_ret_count (createCfg cv) hchild items
          ret errors hloop
        have := count_take_lt hi
        simp only [List.length_map]
        omega
      refine ⟨((ret.map cc).map rep)[((errors.take i).filter
          (fun d => d.isEmpty)).length], List.getElem?_eq_getElem hcnt, ?_⟩
      rw [bms_get, hi]
      have hlt : ((errors.take i).filter (fun d => d.isEmpty)).length
          < ret.length := by
        simpa using hcnt
      simp [List.getElem?_eq_getElem hcnt, List.getElem?_eq_getElem hlt]

/-- C1 witness child validator: even records validate to themselves, odd
records fail with a one-field detail. -/
def wcv : Nat → Except ErrDetail Nat :=
  fun n => if n % 2 = 0 then .ok n else .error [("f", [⟨"bad", "invalid"⟩])]

theorem wcv_contract : ∀ r dd, wcv r = .error dd → dd ≠ [] := by
  intro r dd h
  by_cases hr : r % 2 = 0 <;> simp [wcv, hr] at h
  simp [← h]

theorem C1_witness :
    (∀ r dd, wcv r = .error dd → dd ≠ []) ∧
    internalLoop (createCfg wcv) [2, 3, 4]
      = .ok ([2, 4], [[], [("f", [⟨"bad", "invalid"⟩])], []]) ∧
    (([[], [("f", [⟨"bad", "invalid"⟩])], []] : List ErrDetail).any
        (fun d => !d.isEmpty) = true) ∧
    (∃ body, EasyBulkCreateModelMixin.create wcv (fun v => v) (fun o => o)
          (fun v => v) [2, 3, 4]
        = .ok (207, .multi body)
      ∧ body.length = ([2, 3, 4] : List Nat).length
      ∧ (∀ (i : Nat) (d : ErrDetail),
          ([[], [("f", [⟨"bad", "invalid"⟩])], []] : List ErrDetail)[i]? = some d →
          d ≠ [] → body[i]? = some (.failure d))
      ∧ (∀ (i : Nat),
          ([[], [("f", [⟨"bad", "invalid"⟩])], []] : List ErrDetail)[i]? = some [] →
          ∃ r, ((([2, 4] : List Nat).map (fun v => v)).map
                (fun o => o))[((([[], [("f", [⟨"bad", "invalid"⟩])], []] :
                  List ErrDetail).take i).filter (fun d => d.isEmpty)).length]?
              = some r
            ∧ body[i]? = some (.success (some r)))) :=
  ⟨wcv_contract, rfl, by decide,
    (C1_bulk_create_response wcv (fun v => v) (fun o => o) (fun v => v)
      [2, 3, 4] [2, 4] [[], [("f", [⟨"bad", "invalid"⟩])], []]
      wcv_contract rfl).2 (by decide)⟩

end DRFBulk
